import Mathlib

/-!
Shallow embedding of the batch ledger engine in `src/main.rs` of
`csv_payment_processor`: the fixed-point amount type `Amount` with its
arithmetic, comparison and parsing, the transaction/account data model, and
the replay state machine `process_transactions`.

Conventions of the embedding:
* `i64` is modelled as `Int` and the `u16`/`u32` identifier fields as `Nat`.
  Native-width overflow of the balance arithmetic is explicitly out of scope
  in the design (spec section 4.1: "No overflow detection beyond native
  integer width; overflow is undefined/wrapping behavior and out of scope"),
  and is unreachable from parsed inputs, whose fractional parts are clamped
  below 10000 at parse time.  Where width genuinely decides behaviour —
  `str::parse::<i64>` and `str::parse::<u16>` reject out-of-range numerals —
  the range checks are modelled explicitly.
* Rust `panic!`/`expect` is modelled as `Except.error` carrying the panic
  message; a panicking run produces no output.
* The `while` loop of fraction clamping is modelled with structural fuel
  (the fuel bound is proved sufficient below).
-/

/-- `AMOUNT_PRECISION_LIMITER` from the source. -/
def AMOUNT_PRECISION_LIMITER : Nat := 10000

/-- `enum TransactionType` from the source. -/
inductive TransactionType where
  | Deposit
  | Withdraw
  | Dispute
  | Resolve
  | Chargeback
  | Invalid
deriving DecidableEq, Repr

/-- `TransactionType::from(&str)`: the kind token mapping. -/
def TransactionType.fromStr (value : String) : TransactionType :=
  if value = "deposit" then .Deposit
  else if value = "withdrawal" then .Withdraw
  else if value = "dispute" then .Dispute
  else if value = "resolve" then .Resolve
  else if value = "chargeback" then .Chargeback
  else .Invalid

/-- `struct Amount { whole: i64, decimal: u16 }` from the source. -/
structure Amount where
  whole : Int
  decimal : Nat
deriving DecidableEq, Repr

/-- `PartialEq::eq` for `Amount`: both fields equal. -/
def Amount.beq (a b : Amount) : Bool :=
  (a.whole == b.whole) && (a.decimal == b.decimal)

instance : BEq Amount := ⟨Amount.beq⟩

/-- `PartialOrd::ge` for `Amount`, exactly as overridden in the source:
`self.eq(other) || self.whole > other.whole
  || (self.whole >= other.whole && self.decimal >= other.decimal)`. -/
def Amount.ge (a b : Amount) : Bool :=
  Amount.beq a b
    || decide (a.whole > b.whole)
    || (decide (a.whole ≥ b.whole) && decide (a.decimal ≥ b.decimal))

/-- `impl Add for Amount`: add wholes and raw decimals, carrying
`decimal / 10000` into `whole` when the decimal sum reaches the scale. -/
def Amount.add (a b : Amount) : Amount :=
  let w := a.whole + b.whole
  let d := a.decimal + b.decimal
  if d ≥ AMOUNT_PRECISION_LIMITER then
    ⟨w + ((d / AMOUNT_PRECISION_LIMITER : Nat) : Int), d % AMOUNT_PRECISION_LIMITER⟩
  else
    ⟨w, d⟩

instance : Add Amount := ⟨Amount.add⟩

/-- `impl Sub for Amount`: subtract wholes; when the subtrahend's decimal
exceeds the minuend's, borrow 1 from `whole` and set the decimal to
`rhs.decimal - self.decimal` (the source's literal, unscaled borrow). -/
def Amount.sub (a b : Amount) : Amount :=
  if b.decimal > a.decimal then
    ⟨a.whole - b.whole - 1, b.decimal - a.decimal⟩
  else
    ⟨a.whole - b.whole, a.decimal - b.decimal⟩

instance : Sub Amount := ⟨Amount.sub⟩

/-- `Default for Amount`: zero. -/
def Amount.zero : Amount := ⟨0, 0⟩

instance : Inhabited Amount := ⟨Amount.zero⟩

/-- Numeral value of a digit string (helper for the `str::parse` models). -/
def digitsVal (cs : List Char) : Nat :=
  cs.foldl (fun acc c => acc * 10 + (c.toNat - 48)) 0

/-- A nonempty all-digit string parses to its numeral value; anything else
fails (helper for the `str::parse` models). -/
def parseNat (cs : List Char) : Option Nat :=
  if cs ≠ [] ∧ cs.all Char.isDigit then some (digitsVal cs) else none

/-- Model of Rust `str::parse::<u16>`: optional leading `+`, digits only,
value below 2^16; failure otherwise. -/
def parseU16 (cs : List Char) : Option Nat :=
  let body := match cs with
    | '+' :: rest => rest
    | _ => cs
  match parseNat body with
  | some n => if n < 65536 then some n else none
  | none => none

/-- Model of Rust `str::parse::<i64>`: optional sign, digits only, value in
the `i64` range; failure otherwise. -/
def parseI64 (cs : List Char) : Option Int :=
  match cs with
  | '-' :: rest =>
    match parseNat rest with
    | some n => if n ≤ 9223372036854775808 then some (-(n : Int)) else none
    | none => none
  | '+' :: rest =>
    match parseNat rest with
    | some n => if n ≤ 9223372036854775807 then some ((n : Int)) else none
    | none => none
  | _ =>
    match parseNat cs with
    | some n => if n ≤ 9223372036854775807 then some ((n : Int)) else none
    | none => none

/-- Rust `str::split` on a one-character separator, on character lists. -/
def splitOnChar (sep : Char) : List Char → List (List Char)
  | [] => [[]]
  | c :: cs =>
    if c = sep then
      [] :: splitOnChar sep cs
    else
      match splitOnChar sep cs with
      | [] => [[c]]
      | g :: gs => (c :: g) :: gs

/-- Fuel-driven body of the source's clamping loop
`while d >= AMOUNT_PRECISION_LIMITER { d = d / 10 }`. -/
def clampGo : Nat → Nat → Nat
  | 0, d => d
  | fuel + 1, d => if d ≥ AMOUNT_PRECISION_LIMITER then clampGo fuel (d / 10) else d

/-- The source's clamping loop on the parsed fraction; `d` itself is always
enough fuel (proved in `clampGo_lt` / `clampDecimal_lt`). -/
def clampDecimal (d : Nat) : Nat := clampGo d d

/-- `Amount::from(&str)` on character lists: split on `.` when present,
whole part via `parse::<i64>().unwrap_or(0)`, fraction via
`parse::<u16>().unwrap_or(0)` followed by the clamping loop; no dot means
fraction 0. -/
def Amount.fromChars (cs : List Char) : Amount :=
  if cs.contains '.' then
    match splitOnChar '.' cs with
    | s0 :: s1 :: _ => ⟨(parseI64 s0).getD 0, clampDecimal ((parseU16 s1).getD 0)⟩
    | _ => ⟨0, 0⟩
  else
    ⟨(parseI64 cs).getD 0, 0⟩

/-- `Amount::from(&str)` on strings. -/
def Amount.fromStr (s : String) : Amount := Amount.fromChars s.data

/-- `struct Transaction` from the source. -/
structure Transaction where
  tr_type : TransactionType
  client_id : Nat
  tr_id : Nat
  amount : Option Amount
deriving DecidableEq, Repr

/-- `struct AccountStatus` from the source. -/
structure AccountStatus where
  client_id : Nat
  available : Amount
  held : Amount
  locked : Bool
deriving DecidableEq, Repr

/-- `AccountStatus::total_amount`: `available + held`. -/
def AccountStatus.total_amount (a : AccountStatus) : Amount :=
  a.available + a.held

/-- `handle_account`: index of the first status whose `client_id` matches. -/
def handle_account (id : Nat) : List AccountStatus → Option Nat
  | [] => none
  | r :: rest =>
    if r.client_id == id then some 0
    else (handle_account id rest).map (· + 1)

/-- `get_transaction_with_id`: the first transaction in the list whose
`tr_id` matches. -/
def get_transaction_with_id (tr_id : Nat) : List Transaction → Option Transaction
  | [] => none
  | tr :: rest =>
    if tr.tr_id == tr_id then some tr else get_transaction_with_id tr_id rest

/-- `is_disputed_transaction`: membership of `id` in the dispute list. -/
def is_disputed_transaction (id : Nat) (dis : List Nat) : Bool :=
  dis.any (fun el => el == id)

/-- `remove_dispute`: `dis.retain(|&e| e != id)` removes every occurrence. -/
def remove_dispute (id : Nat) (dis : List Nat) : List Nat :=
  dis.filter (fun e => e != id)

/-- The mutable state of `process_transactions`: the account list `result`
and the dispute list `disputes`. -/
structure PState where
  result : List AccountStatus
  disputes : List Nat
deriving DecidableEq, Repr

/-- Lines 251-259 of the source: find the account index for the client,
pushing a fresh zeroed account at the end when the client is unseen. -/
def ensure_account (id : Nat) (result : List AccountStatus) :
    Nat × List AccountStatus :=
  match handle_account id result with
  | some i => (i, result)
  | none => (result.length, result ++ [⟨id, Amount.zero, Amount.zero, false⟩])

/-- One iteration of the loop body of `process_transactions` for record `tr`,
with `trs` the full input vector (the source passes the whole vector to
`get_transaction_with_id`).  `Except.error` models a panicking `expect`. -/
def step (trs : List Transaction) (st : PState) (tr : Transaction) :
    Except String PState :=
  let p := ensure_account tr.client_id st.result
  let index := p.1
  let result := p.2
  match result[index]? with
  | none => Except.error "No account status found"
  | some el =>
    match tr.tr_type with
    | .Deposit =>
      if !el.locked then
        match tr.amount with
        | none => Except.error "No amount found for deposit"
        | some a =>
          Except.ok ⟨result.set index { el with available := el.available + a },
            st.disputes⟩
      else Except.ok ⟨result, st.disputes⟩
    | .Withdraw =>
      if !el.locked then
        match tr.amount with
        | none => Except.error "No amount found for withdrawal"
        | some a =>
          if Amount.ge (el.available - a) Amount.zero then
            Except.ok ⟨result.set index { el with available := el.available - a },
              st.disputes⟩
          else Except.ok ⟨result, st.disputes⟩
      else Except.ok ⟨result, st.disputes⟩
    | .Dispute =>
      if !el.locked then
        match get_transaction_with_id tr.tr_id trs with
        | none => Except.ok ⟨result, st.disputes⟩
        | some c_tr =>
          match c_tr.amount with
          | none => Except.error "No amount found for dispute"
          | some a =>
            Except.ok ⟨result.set index
              { el with available := el.available - a, held := el.held + a },
              st.disputes ++ [c_tr.tr_id]⟩
      else Except.ok ⟨result, st.disputes⟩
    | .Resolve =>
      if !el.locked then
        match get_transaction_with_id tr.tr_id trs with
        | none => Except.ok ⟨result, st.disputes⟩
        | some c_tr =>
          if is_disputed_transaction c_tr.tr_id st.disputes then
            match c_tr.amount with
            | none => Except.error "No amount found for resolve"
            | some a =>
              Except.ok ⟨result.set index
                { el with available := el.available + a, held := el.held - a },
                remove_dispute c_tr.tr_id st.disputes⟩
          else Except.ok ⟨result, st.disputes⟩
      else Except.ok ⟨result, st.disputes⟩
    | .Chargeback =>
      if !el.locked then
        match get_transaction_with_id tr.tr_id trs with
        | none => Except.ok ⟨result, st.disputes⟩
        | some c_tr =>
          if is_disputed_transaction c_tr.tr_id st.disputes then
            match c_tr.amount with
            | none => Except.error "No amount found for chargeback"
            | some a =>
              Except.ok ⟨result.set index
                { el with held := el.held - a, locked := true },
                remove_dispute c_tr.tr_id st.disputes⟩
          else Except.ok ⟨result, st.disputes⟩
      else Except.ok ⟨result, st.disputes⟩
    | .Invalid => Except.ok ⟨result, st.disputes⟩

/-- Folding `step` over a suffix of the input, with `trs` the full input
vector used for lookups. -/
def processFrom (trs : List Transaction) : PState → List Transaction →
    Except String PState
  | st, [] => Except.ok st
  | st, t :: ts =>
    match step trs st t with
    | Except.error e => Except.error e
    | Except.ok st' => processFrom trs st' ts

/-- `process_transactions`: replay the whole input from the empty state and
return the final account list (or the message of the first panic). -/
def process_transactions (trs : List Transaction) :
    Except String (List AccountStatus) :=
  match processFrom trs ⟨[], []⟩ trs with
  | Except.error e => Except.error e
  | Except.ok st => Except.ok st.result

/-! ## Basic lemmas about the embedded operations -/

theorem clampGo_lt (fuel : Nat) :
    ∀ d : Nat, d ≤ fuel → clampGo fuel d < AMOUNT_PRECISION_LIMITER := by
  induction fuel with
  | zero =>
    intro d h
    have hd : d = 0 := Nat.le_zero.mp h
    subst hd
    simp [clampGo, AMOUNT_PRECISION_LIMITER]
  | succ fuel ih =>
    intro d h
    simp only [clampGo]
    split
    · rename_i hd
      apply ih
      have hd10 : (10000 : Nat) ≤ d := hd
      have h10 : d / 10 < d := Nat.div_lt_self (by omega) (by omega)
      omega
    · rename_i hd
      exact Nat.lt_of_not_le hd

theorem clampDecimal_lt (d : Nat) : clampDecimal d < AMOUNT_PRECISION_LIMITER :=
  clampGo_lt d d (Nat.le_refl d)

theorem handle_account_spec (id : Nat) :
    ∀ (l : List AccountStatus) (i : Nat), handle_account id l = some i →
      ∃ a, l[i]? = some a ∧ a.client_id = id := by
  intro l
  induction l with
  | nil => intro i h; simp [handle_account] at h
  | cons r rest ih =>
    intro i h
    rw [handle_account] at h
    split at h
    · rename_i hr
      cases h
      exact ⟨r, by simp, by simpa using hr⟩
    · cases hrec : handle_account id rest with
      | none => rw [hrec] at h; simp at h
      | some j =>
        rw [hrec] at h
        simp only [Option.map_some'] at h
        cases h
        obtain ⟨a, ha, hid⟩ := ih j hrec
        exact ⟨a, by simpa using ha, hid⟩

theorem get_transaction_with_id_tr_id (t : Nat) :
    ∀ (l : List Transaction) (c : Transaction),
      get_transaction_with_id t l = some c → c.tr_id = t := by
  intro l
  induction l with
  | nil => intro c h; simp [get_transaction_with_id] at h
  | cons tr rest ih =>
    intro c h
    rw [get_transaction_with_id] at h
    split at h
    · rename_i htr
      cases h
      simpa using htr
    · exact ih c h

theorem get_transaction_with_id_self_or_earlier (tr : Transaction) :
    ∀ (l1 l2 : List Transaction),
      ∃ c, get_transaction_with_id tr.tr_id (l1 ++ tr :: l2) = some c ∧
        (c ∈ l1 ∨ c = tr) := by
  intro l1
  induction l1 with
  | nil =>
    intro l2
    refine ⟨tr, ?_, Or.inr rfl⟩
    rw [List.nil_append, get_transaction_with_id]
    simp
  | cons x xs ih =>
    intro l2
    rw [List.cons_append, get_transaction_with_id]
    split
    · exact ⟨x, rfl, Or.inl (List.mem_cons_self x xs)⟩
    · obtain ⟨c, hc, hmem⟩ := ih l2
      refine ⟨c, hc, ?_⟩
      cases hmem with
      | inl hm => exact Or.inl (List.mem_cons_of_mem x hm)
      | inr he => exact Or.inr he

theorem is_disputed_transaction_iff (id : Nat) (dis : List Nat) :
    is_disputed_transaction id dis = true ↔ id ∈ dis := by
  simp [is_disputed_transaction, List.any_eq_true]

theorem remove_dispute_not_mem (id : Nat) (dis : List Nat) :
    id ∉ remove_dispute id dis := by
  simp [remove_dispute]

/-! ## Step characterization lemmas -/

theorem step_locked_noop (trs : List Transaction) (st : PState) (tr : Transaction)
    (i : Nat) (el : AccountStatus)
    (hfind : handle_account tr.client_id st.result = some i)
    (hel : st.result[i]? = some el)
    (hlock : el.locked = true) :
    step trs st tr = Except.ok st := by
  obtain ⟨ty, cid, tid, amt⟩ := tr
  obtain ⟨res, dis⟩ := st
  simp only at hfind hel ⊢
  simp only [step, ensure_account, hfind, hel]
  cases ty <;> simp [hlock]

theorem step_deposit_applies (trs : List Transaction) (st : PState) (tr : Transaction)
    (i : Nat) (el : AccountStatus) (a : Amount)
    (htype : tr.tr_type = TransactionType.Deposit)
    (hfind : handle_account tr.client_id st.result = some i)
    (hel : st.result[i]? = some el)
    (hlock : el.locked = false)
    (hamt : tr.amount = some a) :
    step trs st tr = Except.ok
      ⟨st.result.set i { el with available := el.available + a }, st.disputes⟩ := by
  obtain ⟨ty, cid, tid, amt⟩ := tr
  obtain ⟨res, dis⟩ := st
  simp only at htype hfind hel hamt ⊢
  subst htype
  subst hamt
  simp only [step, ensure_account, hfind, hel, hlock]
  simp

theorem step_withdraw_applies (trs : List Transaction) (st : PState) (tr : Transaction)
    (i : Nat) (el : AccountStatus) (a : Amount)
    (htype : tr.tr_type = TransactionType.Withdraw)
    (hfind : handle_account tr.client_id st.result = some i)
    (hel : st.result[i]? = some el)
    (hlock : el.locked = false)
    (hamt : tr.amount = some a) :
    step trs st tr =
      (if Amount.ge (el.available - a) Amount.zero then
        Except.ok ⟨st.result.set i { el with available := el.available - a },
          st.disputes⟩
      else Except.ok st) := by
  obtain ⟨ty, cid, tid, amt⟩ := tr
  obtain ⟨res, dis⟩ := st
  simp only at htype hfind hel hamt ⊢
  subst htype
  subst hamt
  simp only [step, ensure_account, hfind, hel, hlock]
  simp

theorem step_dispute_applies (trs : List Transaction) (st : PState) (tr : Transaction)
    (i : Nat) (el : AccountStatus) (c_tr : Transaction) (a : Amount)
    (htype : tr.tr_type = TransactionType.Dispute)
    (hfind : handle_account tr.client_id st.result = some i)
    (hel : st.result[i]? = some el)
    (hlock : el.locked = false)
    (hlook : get_transaction_with_id tr.tr_id trs = some c_tr)
    (hamt : c_tr.amount = some a) :
    step trs st tr = Except.ok
      ⟨st.result.set i
        { el with available := el.available - a, held := el.held + a },
        st.disputes ++ [c_tr.tr_id]⟩ := by
  obtain ⟨ty, cid, tid, amt⟩ := tr
  obtain ⟨res, dis⟩ := st
  simp only at htype hfind hel hlook ⊢
  subst htype
  simp only [step, ensure_account, hfind, hel, hlock, hlook, hamt]
  simp

theorem step_resolve_applies (trs : List Transaction) (st : PState) (tr : Transaction)
    (i : Nat) (el : AccountStatus) (c_tr : Transaction) (a : Amount)
    (htype : tr.tr_type = TransactionType.Resolve)
    (hfind : handle_account tr.client_id st.result = some i)
    (hel : st.result[i]? = some el)
    (hlock : el.locked = false)
    (hlook : get_transaction_with_id tr.tr_id trs = some c_tr)
    (hdis : is_disputed_transaction c_tr.tr_id st.disputes = true)
    (hamt : c_tr.amount = some a) :
    step trs st tr = Except.ok
      ⟨st.result.set i
        { el with available := el.available + a, held := el.held - a },
        remove_dispute c_tr.tr_id st.disputes⟩ := by
  obtain ⟨ty, cid, tid, amt⟩ := tr
  obtain ⟨res, dis⟩ := st
  simp only at htype hfind hel hlook hdis ⊢
  subst htype
  simp only [step, ensure_account, hfind, hel, hlock, hlook, hdis, hamt]
  simp

theorem step_resolve_not_disputed_noop (trs : List Transaction) (st : PState)
    (tr : Transaction) (i : Nat)
    (htype : tr.tr_type = TransactionType.Resolve)
    (hfind : handle_account tr.client_id st.result = some i)
    (hdis : is_disputed_transaction tr.tr_id st.disputes = false) :
    step trs st tr = Except.ok st := by
  obtain ⟨el, hel, hcid⟩ := handle_account_spec _ _ _ hfind
  obtain ⟨ty, cid, tid, amt⟩ := tr
  obtain ⟨res, dis⟩ := st
  simp only at htype hfind hel hdis ⊢
  subst htype
  simp only [step, ensure_account, hfind, hel]
  by_cases hl : el.locked
  · simp [hl]
  · simp only [hl, Bool.not_false, if_true]
    cases hlook : get_transaction_with_id tid trs with
    | none => simp
    | some c =>
      have hct : c.tr_id = tid := get_transaction_with_id_tr_id _ _ _ hlook
      simp [hct, hdis]

theorem set_keeps_locked (res : List AccountStatus) (i j : Nat)
    (el el' a : AccountStatus)
    (hel : res[i]? = some el)
    (hget : res[j]? = some a)
    (hlock : a.locked = true)
    (hl : el.locked = true → el'.locked = true) :
    ∃ a', (res.set i el')[j]? = some a' ∧ a'.locked = true := by
  by_cases hij : i = j
  · subst hij
    have hlen : i < res.length := (List.getElem?_eq_some.mp hel).1
    refine ⟨el', List.getElem?_set_eq_of_lt el' hlen, ?_⟩
    apply hl
    have hea : el = a := by
      rw [hel] at hget
      exact Option.some.inj hget
    rw [hea]
    exact hlock
  · refine ⟨a, ?_, hlock⟩
    rw [List.getElem?_set_ne hij]
    exact hget

theorem step_keeps_locked (trs : List Transaction) (st : PState) (tr : Transaction)
    (st' : PState) (j : Nat) (a : AccountStatus)
    (hstep : step trs st tr = Except.ok st')
    (hget : st.result[j]? = some a)
    (hlock : a.locked = true) :
    ∃ a', st'.result[j]? = some a' ∧ a'.locked = true := by
  obtain ⟨ty, cid, tid, amt⟩ := tr
  obtain ⟨res, dis⟩ := st
  simp only at hstep hget ⊢
  cases hfa : handle_account cid res with
  | some i =>
    obtain ⟨el, hel, -⟩ := handle_account_spec _ _ _ hfa
    simp only [step, ensure_account, hfa, hel] at hstep
    cases ty <;>
      (repeat' split at hstep) <;>
      first
        | exact Except.noConfusion hstep
        | (injection hstep with h; subst h;
           first
             | exact ⟨a, hget, hlock⟩
             | exact set_keeps_locked res i j el _ a hel hget hlock (fun hh => hh)
             | exact set_keeps_locked res i j el _ a hel hget hlock (fun hh => rfl))
  | none =>
    have hjlen : j < res.length := (List.getElem?_eq_some.mp hget).1
    have hget' :
        (res ++ [(⟨cid, Amount.zero, Amount.zero, false⟩ : AccountStatus)])[j]? =
          some a := by
      rw [List.getElem?_append_left hjlen]
      exact hget
    have hel2 :
        (res ++ [(⟨cid, Amount.zero, Amount.zero, false⟩ : AccountStatus)])[res.length]? =
          some (⟨cid, Amount.zero, Amount.zero, false⟩ : AccountStatus) :=
      List.getElem?_concat_length _ _
    simp only [step, ensure_account, hfa, hel2] at hstep
    cases ty <;>
      (repeat' split at hstep) <;>
      first
        | exact Except.noConfusion hstep
        | (injection hstep with h; subst h;
           first
             | exact ⟨a, hget', hlock⟩
             | exact set_keeps_locked _ res.length j _ _ a hel2 hget' hlock
                 (fun hh => nomatch hh))

/-! ## Arithmetic lemmas about the fixed-point amount type -/

theorem Amount.add_def (a b : Amount) : a + b = Amount.add a b := rfl

theorem Amount.sub_def (a b : Amount) : a - b = Amount.sub a b := rfl

theorem dispute_total_preserved (avail held a : Amount)
    (h1 : a.decimal ≤ avail.decimal)
    (h2 : avail.decimal < AMOUNT_PRECISION_LIMITER)
    (h3 : held.decimal < AMOUNT_PRECISION_LIMITER) :
    (avail - a) + (held + a) = avail + held := by
  obtain ⟨wa, da⟩ := avail
  obtain ⟨wh, dh⟩ := held
  obtain ⟨w, d⟩ := a
  simp only [AMOUNT_PRECISION_LIMITER] at h1 h2 h3
  simp only [Amount.add_def, Amount.sub_def, Amount.add, Amount.sub,
    AMOUNT_PRECISION_LIMITER]
  split_ifs <;>
    simp only [Amount.mk.injEq] at * <;> (try constructor) <;> omega

theorem resolve_restores (avail held a : Amount)
    (h1 : a.decimal ≤ avail.decimal)
    (h2 : avail.decimal < AMOUNT_PRECISION_LIMITER)
    (h3 : held.decimal + a.decimal < AMOUNT_PRECISION_LIMITER) :
    ((avail - a) + a = avail) ∧ ((held + a) - a = held) := by
  obtain ⟨wa, da⟩ := avail
  obtain ⟨wh, dh⟩ := held
  obtain ⟨w, d⟩ := a
  simp only [AMOUNT_PRECISION_LIMITER] at h1 h2 h3
  simp only [Amount.add_def, Amount.sub_def, Amount.add, Amount.sub,
    AMOUNT_PRECISION_LIMITER]
  constructor <;>
    (split_ifs <;> simp only [Amount.mk.injEq] at * <;> (try constructor) <;> omega)

/-! ## Deposit-only runs -/

theorem processFrom_deposits (trs : List Transaction) (c : Nat) :
    ∀ (rest : List Transaction) (av hd : Amount) (dis : List Nat),
      (∀ t ∈ rest, t.tr_type = TransactionType.Deposit ∧ t.client_id = c ∧
        t.amount.isSome = true) →
      processFrom trs ⟨[⟨c, av, hd, false⟩], dis⟩ rest =
        Except.ok ⟨[⟨c, (rest.filterMap Transaction.amount).foldl Amount.add av,
          hd, false⟩], dis⟩ := by
  intro rest
  induction rest with
  | nil =>
    intro av hd dis h
    simp [processFrom]
  | cons t ts ih =>
    intro av hd dis h
    obtain ⟨hty, hcid, hamt⟩ := h t (List.mem_cons_self t ts)
    obtain ⟨a, ha⟩ := Option.isSome_iff_exists.mp hamt
    have hfind : handle_account t.client_id [⟨c, av, hd, false⟩] = some 0 := by
      rw [hcid]
      simp [handle_account]
    have hstep : step trs ⟨[⟨c, av, hd, false⟩], dis⟩ t =
        Except.ok ⟨[⟨c, Amount.add av a, hd, false⟩], dis⟩ :=
      step_deposit_applies trs ⟨[⟨c, av, hd, false⟩], dis⟩ t 0
        ⟨c, av, hd, false⟩ a hty hfind rfl rfl ha
    rw [processFrom]
    simp only [hstep]
    rw [ih (Amount.add av a) hd dis (fun x hx => h x (List.mem_cons_of_mem t hx))]
    simp [List.filterMap_cons, ha]

/-! ## Claims -/

/-- C1: the spec says a Dispute whose `tx_id` matches no transaction in
history, or whose matched transaction carries no amount, is silently ignored
and processing continues.  The code instead panics: the lookup scans the
whole input vector, so a Dispute always matches at least itself, and the
`expect` on the missing amount aborts the run with
"No amount found for dispute".  Both scenarios are evaluated here: a Dispute
whose `tx_id` occurs nowhere earlier, and a Dispute whose matched (earlier)
transaction carries no amount. -/
theorem C1_dispute_unresolvable_panics :
    process_transactions [⟨TransactionType.Dispute, 1, 1, none⟩] =
      Except.error "No amount found for dispute" ∧
    process_transactions
      [⟨TransactionType.Resolve, 1, 5, none⟩,
        ⟨TransactionType.Dispute, 1, 5, none⟩] =
      Except.error "No amount found for dispute" :=
  ⟨rfl, rfl⟩

/-- C2 counterexample: in the input
`[Dispute(client 1, tx 1), Deposit(client 1, tx 1, 5.0)]` the Dispute's
`tx_id` matches only a record appearing later, yet the lookup does not come
back empty — it returns the Dispute record itself (the lookup scans the whole
input vector and every record matches its own `tr_id`) — and the run then
panics on the missing amount instead of leaving accounts unmodified. -/
theorem C2_counterexample :
    get_transaction_with_id 1
      [⟨TransactionType.Dispute, 1, 1, none⟩,
        ⟨TransactionType.Deposit, 1, 1, some ⟨5, 0⟩⟩] =
      some ⟨TransactionType.Dispute, 1, 1, none⟩ ∧
    process_transactions
      [⟨TransactionType.Dispute, 1, 1, none⟩,
        ⟨TransactionType.Deposit, 1, 1, some ⟨5, 0⟩⟩] =
      Except.error "No amount found for dispute" :=
  ⟨rfl, rfl⟩

/-- C2 (amended): the reference lookup scans the entire input vector from the
start and returns the first record carrying the searched `tx_id`; because a
referencing record itself carries that `tx_id`, the lookup never returns a
record strictly later in the input than the referencing record — it returns
an earlier record or the referencing record itself (never nothing). -/
theorem C2_lookup_never_later :
    ∀ (l1 l2 : List Transaction) (tr : Transaction),
      ∃ c, get_transaction_with_id tr.tr_id (l1 ++ tr :: l2) = some c ∧
        (c ∈ l1 ∨ c = tr) :=
  fun l1 l2 tr => get_transaction_with_id_self_or_earlier tr l1 l2

/-- C7: the spec says a Dispute from an unseen client whose `tx_id` matches
nothing mutates no account, adds no account, and processing continues.  The
code first pushes a fresh zeroed `AccountStatus` for the unseen client
(`ensure_account`), and then panics, because the lookup finds the Dispute
record itself, which carries no amount. -/
theorem C7_unknown_client_dispute :
    ensure_account 7 [] = (0, [⟨7, Amount.zero, Amount.zero, false⟩]) ∧
    process_transactions [⟨TransactionType.Dispute, 7, 9, none⟩] =
      Except.error "No amount found for dispute" :=
  ⟨rfl, rfl⟩

/-- C3 counterexample: run `Deposit(1, tx 1, 0.900)`, `Withdraw(1, tx 2,
0.600)` — after which available is `0.300` and the total is `⟨0, 300⟩` — then
`Dispute(1, tx 1)`.  The dispute subtracts `⟨0, 900⟩` from available with the
source's broken borrow, producing available `⟨-1, 600⟩` and held `⟨0, 900⟩`,
whose total `⟨-1, 1500⟩` differs from the pre-dispute total `⟨0, 300⟩`: the
dispute did not leave the total unchanged. -/
theorem C3_counterexample :
    processFrom
      [⟨TransactionType.Deposit, 1, 1, some ⟨0, 900⟩⟩,
        ⟨TransactionType.Withdraw, 1, 2, some ⟨0, 600⟩⟩,
        ⟨TransactionType.Dispute, 1, 1, none⟩] ⟨[], []⟩
      [⟨TransactionType.Deposit, 1, 1, some ⟨0, 900⟩⟩,
        ⟨TransactionType.Withdraw, 1, 2, some ⟨0, 600⟩⟩] =
      Except.ok ⟨[⟨1, ⟨0, 300⟩, ⟨0, 0⟩, false⟩], []⟩ ∧
    process_transactions
      [⟨TransactionType.Deposit, 1, 1, some ⟨0, 900⟩⟩,
        ⟨TransactionType.Withdraw, 1, 2, some ⟨0, 600⟩⟩,
        ⟨TransactionType.Dispute, 1, 1, none⟩] =
      Except.ok [⟨1, ⟨-1, 600⟩, ⟨0, 900⟩, false⟩] ∧
    AccountStatus.total_amount ⟨1, ⟨-1, 600⟩, ⟨0, 900⟩, false⟩ ≠
      AccountStatus.total_amount ⟨1, ⟨0, 300⟩, ⟨0, 0⟩, false⟩ :=
  ⟨rfl, rfl, by decide⟩

/-- C3 (amended): a successfully applied Dispute for amount `a` sets
`available := available - a` and `held := held + a` and records the id in the
dispute list; the total is preserved provided the subtraction does not take
the source's borrow branch, i.e. when `a.decimal ≤ available.decimal` (with
both decimals below the scale constant, as parsing guarantees).  With a
borrow the total can change, as `C3_counterexample` shows. -/
theorem C3_dispute_moves_amount (trs : List Transaction) (st : PState)
    (tr : Transaction) (i : Nat) (el : AccountStatus) (c_tr : Transaction)
    (a : Amount)
    (htype : tr.tr_type = TransactionType.Dispute)
    (hfind : handle_account tr.client_id st.result = some i)
    (hel : st.result[i]? = some el)
    (hlock : el.locked = false)
    (hlook : get_transaction_with_id tr.tr_id trs = some c_tr)
    (hamt : c_tr.amount = some a)
    (hd1 : a.decimal ≤ el.available.decimal)
    (hd2 : el.available.decimal < AMOUNT_PRECISION_LIMITER)
    (hd3 : el.held.decimal < AMOUNT_PRECISION_LIMITER) :
    step trs st tr = Except.ok
      ⟨st.result.set i
        { el with available := el.available - a, held := el.held + a },
        st.disputes ++ [c_tr.tr_id]⟩ ∧
    AccountStatus.total_amount
      { el with available := el.available - a, held := el.held + a } =
      AccountStatus.total_amount el := by
  refine ⟨step_dispute_applies trs st tr i el c_tr a htype hfind hel hlock hlook hamt, ?_⟩
  simpa [AccountStatus.total_amount] using
    dispute_total_preserved el.available el.held a hd1 hd2 hd3

/-- Closed instance of `C3_dispute_moves_amount`: a dispute of `5.0` against
an account holding `5.0` available, with every hypothesis discharged by
evaluation. -/
theorem C3_witness :
    step
      [⟨TransactionType.Deposit, 1, 1, some ⟨5, 0⟩⟩,
        ⟨TransactionType.Dispute, 1, 1, none⟩]
      ⟨[⟨1, ⟨5, 0⟩, ⟨0, 0⟩, false⟩], []⟩
      ⟨TransactionType.Dispute, 1, 1, none⟩ = Except.ok
      ⟨[⟨1, ⟨5, 0⟩, ⟨0, 0⟩, false⟩].set 0
        ⟨1, ⟨5, 0⟩ - ⟨5, 0⟩, ⟨0, 0⟩ + ⟨5, 0⟩, false⟩, [] ++ [1]⟩ ∧
    AccountStatus.total_amount ⟨1, ⟨5, 0⟩ - ⟨5, 0⟩, ⟨0, 0⟩ + ⟨5, 0⟩, false⟩ =
      AccountStatus.total_amount ⟨1, ⟨5, 0⟩, ⟨0, 0⟩, false⟩ :=
  C3_dispute_moves_amount
    [⟨TransactionType.Deposit, 1, 1, some ⟨5, 0⟩⟩,
      ⟨TransactionType.Dispute, 1, 1, none⟩]
    ⟨[⟨1, ⟨5, 0⟩, ⟨0, 0⟩, false⟩], []⟩
    ⟨TransactionType.Dispute, 1, 1, none⟩ 0
    ⟨1, ⟨5, 0⟩, ⟨0, 0⟩, false⟩
    ⟨TransactionType.Deposit, 1, 1, some ⟨5, 0⟩⟩ ⟨5, 0⟩
    rfl rfl rfl rfl rfl rfl (by decide) (by decide) (by decide)

/-- C4 counterexample: continuing `C3_counterexample` with `Resolve(1, tx 1)`:
before the Dispute the account had available `⟨0, 300⟩` and held `⟨0, 0⟩`, but
after Dispute followed by Resolve the available is `⟨-1, 1500⟩` (and held
`⟨0, 0⟩`): the Resolve did not restore the pre-dispute available. -/
theorem C4_counterexample :
    processFrom
      [⟨TransactionType.Deposit, 1, 1, some ⟨0, 900⟩⟩,
        ⟨TransactionType.Withdraw, 1, 2, some ⟨0, 600⟩⟩,
        ⟨TransactionType.Dispute, 1, 1, none⟩,
        ⟨TransactionType.Resolve, 1, 1, none⟩] ⟨[], []⟩
      [⟨TransactionType.Deposit, 1, 1, some ⟨0, 900⟩⟩,
        ⟨TransactionType.Withdraw, 1, 2, some ⟨0, 600⟩⟩] =
      Except.ok ⟨[⟨1, ⟨0, 300⟩, ⟨0, 0⟩, false⟩], []⟩ ∧
    process_transactions
      [⟨TransactionType.Deposit, 1, 1, some ⟨0, 900⟩⟩,
        ⟨TransactionType.Withdraw, 1, 2, some ⟨0, 600⟩⟩,
        ⟨TransactionType.Dispute, 1, 1, none⟩,
        ⟨TransactionType.Resolve, 1, 1, none⟩] =
      Except.ok [⟨1, ⟨-1, 1500⟩, ⟨0, 0⟩, false⟩] ∧
    (⟨-1, 1500⟩ : Amount) ≠ ⟨0, 300⟩ :=
  ⟨rfl, rfl, by decide⟩

/-- C4 (amended): an applied Resolve sets `available := available + a`,
`held := held - a` and removes the id from the dispute list; this restores
exactly the pre-dispute available and held provided the Dispute's subtraction
took no borrow (`a.decimal ≤ available.decimal`) and its addition carried
nothing (`held.decimal + a.decimal` below the scale constant) — otherwise
restoration can fail, as `C4_counterexample` shows.  A Resolve whose `tx_id`
is not in the dispute list leaves the whole state unchanged. -/
theorem C4_resolve_reverses_dispute :
    (∀ avail held a : Amount,
      a.decimal ≤ avail.decimal →
      avail.decimal < AMOUNT_PRECISION_LIMITER →
      held.decimal + a.decimal < AMOUNT_PRECISION_LIMITER →
      ((avail - a) + a = avail) ∧ ((held + a) - a = held)) ∧
    (∀ (trs : List Transaction) (st : PState) (tr : Transaction) (i : Nat)
        (el : AccountStatus) (c_tr : Transaction) (a : Amount),
      tr.tr_type = TransactionType.Resolve →
      handle_account tr.client_id st.result = some i →
      st.result[i]? = some el →
      el.locked = false →
      get_transaction_with_id tr.tr_id trs = some c_tr →
      is_disputed_transaction c_tr.tr_id st.disputes = true →
      c_tr.amount = some a →
      step trs st tr = Except.ok
        ⟨st.result.set i
          { el with available := el.available + a, held := el.held - a },
          remove_dispute c_tr.tr_id st.disputes⟩) ∧
    (∀ (trs : List Transaction) (st : PState) (tr : Transaction) (i : Nat),
      tr.tr_type = TransactionType.Resolve →
      handle_account tr.client_id st.result = some i →
      is_disputed_transaction tr.tr_id st.disputes = false →
      step trs st tr = Except.ok st) :=
  ⟨resolve_restores, step_resolve_applies, step_resolve_not_disputed_noop⟩

/-- Closed instance of `C4_resolve_reverses_dispute`: the arithmetic reversal
at `avail = ⟨2, 500⟩`, `held = ⟨0, 100⟩`, `a = ⟨1, 400⟩`; the applied Resolve
on a disputed transaction; and the no-op Resolve on a non-disputed id. -/
theorem C4_witness :
    (((⟨2, 500⟩ : Amount) - ⟨1, 400⟩) + ⟨1, 400⟩ = ⟨2, 500⟩ ∧
      ((⟨0, 100⟩ : Amount) + ⟨1, 400⟩) - ⟨1, 400⟩ = ⟨0, 100⟩) ∧
    step
      [⟨TransactionType.Deposit, 1, 1, some ⟨5, 0⟩⟩,
        ⟨TransactionType.Resolve, 1, 1, none⟩]
      ⟨[⟨1, ⟨0, 0⟩, ⟨5, 0⟩, false⟩], [1]⟩
      ⟨TransactionType.Resolve, 1, 1, none⟩ = Except.ok
      ⟨[⟨1, ⟨0, 0⟩, ⟨5, 0⟩, false⟩].set 0
        ⟨1, ⟨0, 0⟩ + ⟨5, 0⟩, ⟨5, 0⟩ - ⟨5, 0⟩, false⟩, remove_dispute 1 [1]⟩ ∧
    step
      [⟨TransactionType.Deposit, 1, 1, some ⟨5, 0⟩⟩,
        ⟨TransactionType.Resolve, 1, 1, none⟩]
      ⟨[⟨1, ⟨5, 0⟩, ⟨0, 0⟩, false⟩], []⟩
      ⟨TransactionType.Resolve, 1, 1, none⟩ =
      Except.ok ⟨[⟨1, ⟨5, 0⟩, ⟨0, 0⟩, false⟩], []⟩ :=
  ⟨C4_resolve_reverses_dispute.1 ⟨2, 500⟩ ⟨0, 100⟩ ⟨1, 400⟩
      (by decide) (by decide) (by decide),
    C4_resolve_reverses_dispute.2.1
      [⟨TransactionType.Deposit, 1, 1, some ⟨5, 0⟩⟩,
        ⟨TransactionType.Resolve, 1, 1, none⟩]
      ⟨[⟨1, ⟨0, 0⟩, ⟨5, 0⟩, false⟩], [1]⟩
      ⟨TransactionType.Resolve, 1, 1, none⟩ 0
      ⟨1, ⟨0, 0⟩, ⟨5, 0⟩, false⟩
      ⟨TransactionType.Deposit, 1, 1, some ⟨5, 0⟩⟩ ⟨5, 0⟩
      rfl rfl rfl rfl rfl (by decide) rfl,
    C4_resolve_reverses_dispute.2.2
      [⟨TransactionType.Deposit, 1, 1, some ⟨5, 0⟩⟩,
        ⟨TransactionType.Resolve, 1, 1, none⟩]
      ⟨[⟨1, ⟨5, 0⟩, ⟨0, 0⟩, false⟩], []⟩
      ⟨TransactionType.Resolve, 1, 1, none⟩ 0
      rfl rfl (by decide)⟩

/-- C5: once an account is locked, any further record addressed to that
client is a complete no-op (the state is returned unchanged for every
transaction kind), and no step of the engine ever clears a locked flag:
every account that is locked before an (ok) step is still locked after it. -/
theorem C5_lock_terminal :
    (∀ (trs : List Transaction) (st : PState) (tr : Transaction) (i : Nat)
        (el : AccountStatus),
      handle_account tr.client_id st.result = some i →
      st.result[i]? = some el →
      el.locked = true →
      step trs st tr = Except.ok st) ∧
    (∀ (trs : List Transaction) (st : PState) (tr : Transaction) (st' : PState)
        (j : Nat) (a : AccountStatus),
      step trs st tr = Except.ok st' →
      st.result[j]? = some a →
      a.locked = true →
      ∃ a', st'.result[j]? = some a' ∧ a'.locked = true) :=
  ⟨step_locked_noop, step_keeps_locked⟩

/-- Closed instance of `C5_lock_terminal`: a deposit addressed to a locked
account leaves the state unchanged, and the account is still locked after
the step. -/
theorem C5_witness :
    step [] ⟨[⟨3, ⟨5, 0⟩, ⟨0, 0⟩, true⟩], []⟩
      ⟨TransactionType.Deposit, 3, 10, some ⟨2, 0⟩⟩ =
      Except.ok ⟨[⟨3, ⟨5, 0⟩, ⟨0, 0⟩, true⟩], []⟩ ∧
    (∃ a', ([⟨3, ⟨5, 0⟩, ⟨0, 0⟩, true⟩] :
      List AccountStatus)[0]? = some a' ∧ a'.locked = true) := by
  have h1 := C5_lock_terminal.1 [] ⟨[⟨3, ⟨5, 0⟩, ⟨0, 0⟩, true⟩], []⟩
    ⟨TransactionType.Deposit, 3, 10, some ⟨2, 0⟩⟩ 0
    ⟨3, ⟨5, 0⟩, ⟨0, 0⟩, true⟩ rfl rfl rfl
  have h2 := C5_lock_terminal.2 [] ⟨[⟨3, ⟨5, 0⟩, ⟨0, 0⟩, true⟩], []⟩
    ⟨TransactionType.Deposit, 3, 10, some ⟨2, 0⟩⟩
    ⟨[⟨3, ⟨5, 0⟩, ⟨0, 0⟩, true⟩], []⟩ 0
    ⟨3, ⟨5, 0⟩, ⟨0, 0⟩, true⟩ h1 rfl rfl
  exact ⟨h1, h2⟩

/-- C6: a Withdraw with amount `a` on an unlocked account applies
`available := available - a` exactly when `available - a ≥ 0` holds under the
source's `PartialOrd::ge` for `Amount` (compared against the default zero
amount); otherwise the whole state is returned unchanged and processing
continues. -/
theorem C6_withdraw_guard (trs : List Transaction) (st : PState)
    (tr : Transaction) (i : Nat) (el : AccountStatus) (a : Amount)
    (htype : tr.tr_type = TransactionType.Withdraw)
    (hfind : handle_account tr.client_id st.result = some i)
    (hel : st.result[i]? = some el)
    (hlock : el.locked = false)
    (hamt : tr.amount = some a) :
    step trs st tr =
      (if Amount.ge (el.available - a) Amount.zero then
        Except.ok ⟨st.result.set i { el with available := el.available - a },
          st.disputes⟩
      else Except.ok st) :=
  step_withdraw_applies trs st tr i el a htype hfind hel hlock hamt

/-- Closed instance of `C6_withdraw_guard`: withdrawing `2.0` from `5.0`
available. -/
theorem C6_witness :
    step [] ⟨[⟨1, ⟨5, 0⟩, ⟨0, 0⟩, false⟩], []⟩
      ⟨TransactionType.Withdraw, 1, 2, some ⟨2, 0⟩⟩ =
      (if Amount.ge ((⟨5, 0⟩ : Amount) - ⟨2, 0⟩) Amount.zero then
        Except.ok ⟨[⟨1, ⟨5, 0⟩, ⟨0, 0⟩, false⟩].set 0
          ⟨1, ⟨5, 0⟩ - ⟨2, 0⟩, ⟨0, 0⟩, false⟩, []⟩
      else Except.ok ⟨[⟨1, ⟨5, 0⟩, ⟨0, 0⟩, false⟩], []⟩) :=
  C6_withdraw_guard [] ⟨[⟨1, ⟨5, 0⟩, ⟨0, 0⟩, false⟩], []⟩
    ⟨TransactionType.Withdraw, 1, 2, some ⟨2, 0⟩⟩ 0
    ⟨1, ⟨5, 0⟩, ⟨0, 0⟩, false⟩ ⟨2, 0⟩ rfl rfl rfl rfl rfl

/-- C8: replaying a nonempty sequence of deposits for a single client yields
exactly one account whose available balance is the left fold of the source's
`Amount` addition over the deposited amounts starting from zero, with zero
held and unlocked. -/
theorem C8_deposit_fold (trs : List Transaction) (c : Nat)
    (hne : trs ≠ [])
    (hdep : ∀ t ∈ trs, t.tr_type = TransactionType.Deposit ∧ t.client_id = c ∧
      t.amount.isSome = true) :
    process_transactions trs =
      Except.ok [⟨c, (trs.filterMap Transaction.amount).foldl Amount.add
        Amount.zero, Amount.zero, false⟩] := by
  cases trs with
  | nil => exact absurd rfl hne
  | cons t ts =>
    obtain ⟨hty, hcid, hamt⟩ := hdep t (List.mem_cons_self t ts)
    obtain ⟨a, ha⟩ := Option.isSome_iff_exists.mp hamt
    have hstep : step (t :: ts) ⟨[], []⟩ t =
        Except.ok ⟨[⟨c, Amount.add Amount.zero a, Amount.zero, false⟩], []⟩ := by
      obtain ⟨ty, cid, tid, amt⟩ := t
      simp only at hty hcid ha
      subst hty
      subst hcid
      subst ha
      simp [step, ensure_account, handle_account, Amount.add_def]
    unfold process_transactions
    rw [processFrom]
    simp only [hstep]
    rw [processFrom_deposits (t :: ts) c ts (Amount.add Amount.zero a)
      Amount.zero [] (fun x hx => hdep x (List.mem_cons_of_mem t hx))]
    simp [List.filterMap_cons, ha]

/-- Closed instance of `C8_deposit_fold` on two deposits for client 1. -/
theorem C8_witness :
    ([⟨TransactionType.Deposit, 1, 1, some ⟨5, 0⟩⟩,
      ⟨TransactionType.Deposit, 1, 2, some ⟨3, 100⟩⟩] :
        List Transaction) ≠ [] ∧
    (∀ t ∈ ([⟨TransactionType.Deposit, 1, 1, some ⟨5, 0⟩⟩,
      ⟨TransactionType.Deposit, 1, 2, some ⟨3, 100⟩⟩] : List Transaction),
      t.tr_type = TransactionType.Deposit ∧ t.client_id = 1 ∧
      t.amount.isSome = true) ∧
    process_transactions
      [⟨TransactionType.Deposit, 1, 1, some ⟨5, 0⟩⟩,
        ⟨TransactionType.Deposit, 1, 2, some ⟨3, 100⟩⟩] =
      Except.ok [⟨1,
        (([⟨TransactionType.Deposit, 1, 1, some ⟨5, 0⟩⟩,
          ⟨TransactionType.Deposit, 1, 2, some ⟨3, 100⟩⟩] :
            List Transaction).filterMap Transaction.amount).foldl Amount.add
          Amount.zero, Amount.zero, false⟩] :=
  ⟨by decide, by decide, C8_deposit_fold _ 1 (by decide) (by decide)⟩

/-- C9: amount parsing is total and never aborts the run — an unparseable
whole part yields whole 0, absence of a decimal point yields fraction 0, a
present fraction is the parsed value clamped by the division loop, and the
resulting fraction is always below the scale constant 10000. -/
theorem C9_parse_total (cs : List Char) :
    (Amount.fromChars cs).decimal < AMOUNT_PRECISION_LIMITER ∧
    (cs.contains '.' = false →
      Amount.fromChars cs = ⟨(parseI64 cs).getD 0, 0⟩) ∧
    (cs.contains '.' = false → parseI64 cs = none →
      (Amount.fromChars cs).whole = 0) ∧
    (∀ s0 s1 rest, cs.contains '.' = true →
      splitOnChar '.' cs = s0 :: s1 :: rest →
      Amount.fromChars cs =
        ⟨(parseI64 s0).getD 0, clampDecimal ((parseU16 s1).getD 0)⟩) := by
  refine ⟨?_, ?_, ?_, ?_⟩
  · rw [Amount.fromChars]
    split
    · split
      · exact clampDecimal_lt _
      · show (0 : Nat) < 10000
        decide
    · show (0 : Nat) < 10000
      decide
  · intro h
    have h' : '.' ∉ cs := by simpa using h
    simp [Amount.fromChars, h']
  · intro h hp
    have h' : '.' ∉ cs := by simpa using h
    simp [Amount.fromChars, h', hp]
  · intro s0 s1 rest hc hs
    have h' : '.' ∈ cs := by simpa using hc
    simp [Amount.fromChars, h', hs]

/-- Closed instance of `C9_parse_total`: an over-wide fraction is clamped
below 10000; a dotless unparseable numeral gives whole 0 and fraction 0. -/
theorem C9_witness :
    (Amount.fromChars ['x', '.', '9', '9', '9', '9', '9']).decimal <
      AMOUNT_PRECISION_LIMITER ∧
    (['z'].contains '.' = false) ∧
    Amount.fromChars ['z'] = ⟨(parseI64 ['z']).getD 0, 0⟩ ∧
    parseI64 ['z'] = none ∧
    (Amount.fromChars ['z']).whole = 0 ∧
    splitOnChar '.' ['x', '.', '9'] = [['x'], ['9']] ∧
    Amount.fromChars ['x', '.', '9'] =
      ⟨(parseI64 ['x']).getD 0, clampDecimal ((parseU16 ['9']).getD 0)⟩ :=
  ⟨(C9_parse_total _).1, by decide,
    (C9_parse_total _).2.1 (by decide), by decide,
    (C9_parse_total _).2.2.1 (by decide) (by decide), by decide,
    (C9_parse_total _).2.2.2 ['x'] ['9'] [] (by decide) (by decide)⟩

/-- C10: a Dispute is applied without consulting the dispute list, so a
second successful Dispute on an id already under dispute moves the amount
again and appends a duplicate entry; `remove_dispute` removes every entry for
an id at once, so a single applied Resolve empties all of them and a second
Resolve for the same id is a no-op (its adjustment is applied only once). -/
theorem C10_duplicate_dispute :
    (∀ (trs : List Transaction) (st : PState) (tr : Transaction) (i : Nat)
        (el : AccountStatus) (c_tr : Transaction) (a : Amount),
      tr.tr_type = TransactionType.Dispute →
      handle_account tr.client_id st.result = some i →
      st.result[i]? = some el →
      el.locked = false →
      get_transaction_with_id tr.tr_id trs = some c_tr →
      c_tr.amount = some a →
      is_disputed_transaction tr.tr_id st.disputes = true →
      step trs st tr = Except.ok
        ⟨st.result.set i
          { el with available := el.available - a, held := el.held + a },
          st.disputes ++ [c_tr.tr_id]⟩ ∧
        c_tr.tr_id ∈ st.disputes) ∧
    (∀ (id : Nat) (dis : List Nat), id ∉ remove_dispute id dis) ∧
    (∀ (trs : List Transaction) (st : PState) (tr : Transaction) (i : Nat)
        (el : AccountStatus) (c_tr : Transaction) (a : Amount),
      tr.tr_type = TransactionType.Resolve →
      handle_account tr.client_id st.result = some i →
      st.result[i]? = some el →
      el.locked = false →
      get_transaction_with_id tr.tr_id trs = some c_tr →
      is_disputed_transaction c_tr.tr_id st.disputes = true →
      c_tr.amount = some a →
      step trs st tr = Except.ok
        ⟨st.result.set i
          { el with available := el.available + a, held := el.held - a },
          remove_dispute c_tr.tr_id st.disputes⟩) ∧
    (∀ (trs : List Transaction) (st : PState) (tr : Transaction) (i : Nat),
      tr.tr_type = TransactionType.Resolve →
      handle_account tr.client_id st.result = some i →
      is_disputed_transaction tr.tr_id st.disputes = false →
      step trs st tr = Except.ok st) := by
  refine ⟨?_, remove_dispute_not_mem, step_resolve_applies,
    step_resolve_not_disputed_noop⟩
  intro trs st tr i el c_tr a htype hfind hel hlock hlook hamt hdup
  refine ⟨step_dispute_applies trs st tr i el c_tr a htype hfind hel hlock
    hlook hamt, ?_⟩
  rw [get_transaction_with_id_tr_id _ _ _ hlook]
  exact (is_disputed_transaction_iff _ _).mp hdup

/-- Closed instance of `C10_duplicate_dispute`: a second Dispute on the
already-disputed id 1 moves the amount again and duplicates the tracker
entry; removal drops both copies at once; an applied Resolve removes the id;
a Resolve on a non-disputed id is a no-op. -/
theorem C10_witness :
    (step
      [⟨TransactionType.Deposit, 1, 1, some ⟨5, 0⟩⟩,
        ⟨TransactionType.Dispute, 1, 1, none⟩]
      ⟨[⟨1, ⟨0, 0⟩, ⟨5, 0⟩, false⟩], [1]⟩
      ⟨TransactionType.Dispute, 1, 1, none⟩ = Except.ok
      ⟨[⟨1, ⟨0, 0⟩, ⟨5, 0⟩, false⟩].set 0
        ⟨1, ⟨0, 0⟩ - ⟨5, 0⟩, ⟨5, 0⟩ + ⟨5, 0⟩, false⟩, [1] ++ [1]⟩ ∧
      (1 : Nat) ∈ [1]) ∧
    (4 : Nat) ∉ remove_dispute 4 [4, 4] ∧
    step
      [⟨TransactionType.Deposit, 2, 6, some ⟨7, 0⟩⟩,
        ⟨TransactionType.Resolve, 2, 6, none⟩]
      ⟨[⟨2, ⟨0, 0⟩, ⟨7, 0⟩, false⟩], [6, 6]⟩
      ⟨TransactionType.Resolve, 2, 6, none⟩ = Except.ok
      ⟨[⟨2, ⟨0, 0⟩, ⟨7, 0⟩, false⟩].set 0
        ⟨2, ⟨0, 0⟩ + ⟨7, 0⟩, ⟨7, 0⟩ - ⟨7, 0⟩, false⟩,
        remove_dispute 6 [6, 6]⟩ ∧
    step
      [⟨TransactionType.Deposit, 2, 6, some ⟨7, 0⟩⟩,
        ⟨TransactionType.Resolve, 2, 6, none⟩]
      ⟨[⟨2, ⟨7, 0⟩, ⟨0, 0⟩, false⟩], []⟩
      ⟨TransactionType.Resolve, 2, 6, none⟩ =
      Except.ok ⟨[⟨2, ⟨7, 0⟩, ⟨0, 0⟩, false⟩], []⟩ :=
  ⟨C10_duplicate_dispute.1
      [⟨TransactionType.Deposit, 1, 1, some ⟨5, 0⟩⟩,
        ⟨TransactionType.Dispute, 1, 1, none⟩]
      ⟨[⟨1, ⟨0, 0⟩, ⟨5, 0⟩, false⟩], [1]⟩
      ⟨TransactionType.Dispute, 1, 1, none⟩ 0
      ⟨1, ⟨0, 0⟩, ⟨5, 0⟩, false⟩
      ⟨TransactionType.Deposit, 1, 1, some ⟨5, 0⟩⟩ ⟨5, 0⟩
      rfl rfl rfl rfl rfl rfl (by decide),
    C10_duplicate_dispute.2.1 4 [4, 4],
    C10_duplicate_dispute.2.2.1
      [⟨TransactionType.Deposit, 2, 6, some ⟨7, 0⟩⟩,
        ⟨TransactionType.Resolve, 2, 6, none⟩]
      ⟨[⟨2, ⟨0, 0⟩, ⟨7, 0⟩, false⟩], [6, 6]⟩
      ⟨TransactionType.Resolve, 2, 6, none⟩ 0
      ⟨2, ⟨0, 0⟩, ⟨7, 0⟩, false⟩
      ⟨TransactionType.Deposit, 2, 6, some ⟨7, 0⟩⟩ ⟨7, 0⟩
      rfl rfl rfl rfl rfl (by decide) rfl,
    C10_duplicate_dispute.2.2.2
      [⟨TransactionType.Deposit, 2, 6, some ⟨7, 0⟩⟩,
        ⟨TransactionType.Resolve, 2, 6, none⟩]
      ⟨[⟨2, ⟨7, 0⟩, ⟨0, 0⟩, false⟩], []⟩
      ⟨TransactionType.Resolve, 2, 6, none⟩ 0
      rfl rfl (by decide)⟩
